import Mathlib

/-!
Verification development for the analysis pass of cvs2svn
(src/cvs2svn_lib/collect_data.py and src/cvs2svn_lib/svn_commit.py).

Revision numbers are embedded as lists of their numeric components:
the Python source manipulates dotted strings such as "1.3.2.1", and the
translation identifies the string with the list [1, 3, 2, 1].  Under this
identification, rev.count of the dot character equals length - 1, the
prefix of the string up to (excluding) the last dot equals List.dropLast,
and startswith on a dotted prefix equals a List.take comparison.

Python dictionaries keyed by revision strings are embedded as association
lists of records; in-place mutation of timestamps is embedded as explicit
state passing.  Unbounded while loops of the source are embedded with an
explicit fuel parameter; the theorems either hold for every fuel value or
exhibit a concrete fuel bound that suffices.
-/

/-- A revision number, as the list of numeric components of the dotted
string used by the source. -/
abbrev RevNum := List Nat

/-- The number of dots in the string form of a revision number
(rev.count of the dot character in the source). -/
def dotCount (r : RevNum) : Nat := r.length - 1

/-- Source: is_trunk_revision in collect_data.py — true iff the revision
string contains exactly one dot. -/
def is_trunk_revision (r : RevNum) : Bool := dotCount r == 1

/-- Source: is_branch_revision in collect_data.py — true iff the revision
string contains at least three dots. -/
def is_branch_revision (r : RevNum) : Bool := decide (3 ≤ dotCount r)

/-- Source: is_same_line_of_development in collect_data.py — true if both
revisions are trunk revisions (one dot each), or the prefixes up to the
last dot coincide.  The None cases of the source are handled at the call
sites of this embedding. -/
def is_same_line_of_development (r1 r2 : RevNum) : Bool :=
  if dotCount r1 == 1 && dotCount r2 == 1 then true
  else if r1.dropLast == r2.dropLast then true
  else false

/-- Source: the vendor_revision regular expression in collect_data.py,
matching exactly the revisions of the form 1.1.1.N. -/
def vendor_revision_match (r : RevNum) : Bool :=
  r.length == 4 && r.take 3 == [1, 1, 1]

/-- Source: the branch_tag_re regular expression of collect_data.py,

    ^((?:d+.d+.)+)(?:0.)?(d+)$   (with d+ a digit group),

applied to a well-formed dotted number.  The first group consumes a
nonzero even count 2*k of leading components, an optional interposed zero
component may follow, and a single final component closes the match.  On
a component list of length L this means: L = 2*k + 1 with k >= 1 (no zero
segment, by parity), or L = 2*k + 2 with k >= 1 and the component at
index 2*k (the second-to-last) equal to 0.  The returned value is
group(1) ++ group(2): the leading components followed by the final one,
with the interposed zero dropped. -/
def branchTagMatch (l : RevNum) : Option RevNum :=
  if 3 ≤ l.length ∧ l.length % 2 = 1 then
    some l
  else if 4 ≤ l.length ∧ l.length % 2 = 0 ∧ l.get? (l.length - 2) = some 0 then
    some (l.take (l.length - 2) ++ l.drop (l.length - 1))
  else none

/-- The two kinds of symbol recorded by define_symbol: a branch with its
(normalized, odd-length) branch number, or a tag on a revision. -/
inductive SymbolClass where
  | branch (number : RevNum)
  | tag (revision : RevNum)
deriving DecidableEq, Repr

/-- Source: the classification step of _SymbolDataCollector.define_symbol
in collect_data.py — match the raw revision number against branch_tag_re;
on a match record a branch under group(1)+group(2), otherwise a tag. -/
def classifySymbol (revision : RevNum) : SymbolClass :=
  match branchTagMatch revision with
  | some number => SymbolClass.branch number
  | none => SymbolClass.tag revision

/-- The operation assigned to a CVSRevision (OP_ADD, OP_CHANGE, OP_DELETE
from the common module). -/
inductive CvsOp where
  | add
  | change
  | delete
deriving DecidableEq, Repr

/-- Source: the per-revision record _RevisionData of collect_data.py,
restricted to the fields read by _determine_operation,
_update_default_branch, _is_first_on_branch and set_revision_info:
the revision number, the RCS state, the parent revision number along the
same line of development (None for the first revision), and the
timestamp. -/
structure RevData where
  rev : RevNum
  state : String
  parent : Option RevNum
  timestamp : Int
deriving DecidableEq, Repr

/-- Lookup in the _rev_data dictionary, embedded as an association list
(dict.get: returns none when the key is absent). -/
def lookupRev (m : List RevData) (r : RevNum) : Option RevData :=
  m.find? (fun rd => rd.rev == r)

/-- The state of a revision number under the _rev_data dictionary.  The
source indexes the dictionary directly ([] lookup); a missing key would
raise in Python, and is embedded as the empty string (which is never
equal to the string dead). -/
def stateOf (m : List RevData) (r : RevNum) : String :=
  ((lookupRev m r).map RevData.state).getD ""

/-- Source: the first part of _FileDataCollector._determine_operation in
collect_data.py — delete if the RCS state is dead, else add if there is
no previous revision or its state is dead, else change. -/
def initialOperation (m : List RevData) (rd : RevData) : CvsOp :=
  match rd.parent.bind (lookupRev m) with
  | none => if rd.state = "dead" then CvsOp.delete else CvsOp.add
  | some prev =>
    if rd.state = "dead" then CvsOp.delete
    else if prev.state = "dead" then CvsOp.add
    else CvsOp.change

/-- Source: the while loop of _determine_operation (issue 89): walk back
through the parent chain from the given revision; at each step with
current revision cur and parent prev, if the step crosses lines of
development while cur is dead and prev is alive, replace the operation by
change.  The unbounded Python loop is given a fuel parameter; a missing
dictionary key (a KeyError in Python) stops the walk. -/
def deadSproutWalk (m : List RevData) : Nat → RevNum → CvsOp → CvsOp
  | 0, _, op => op
  | fuel + 1, cur, op =>
    match (lookupRev m cur).bind RevData.parent with
    | none => op
    | some prev =>
      if cur = [] ∨ prev = [] then op
      else
        deadSproutWalk m fuel prev
          (if is_same_line_of_development cur prev = false
              ∧ stateOf m cur = "dead" ∧ stateOf m prev ≠ "dead"
           then CvsOp.change else op)

/-- The list of (current, parent) steps visited by the while loop of
_determine_operation, for stating which steps the walk examines. -/
def walkSteps (m : List RevData) : Nat → RevNum → List (RevNum × RevNum)
  | 0, _ => []
  | fuel + 1, cur =>
    match (lookupRev m cur).bind RevData.parent with
    | none => []
    | some prev =>
      if cur = [] ∨ prev = [] then []
      else (cur, prev) :: walkSteps m fuel prev

/-- Source: _FileDataCollector._determine_operation in collect_data.py —
the initial classification followed by the dead-predecessors-on-branch
special case, which runs only for a branch revision in a non-dead
state. -/
def determineOperation (m : List RevData) (fuel : Nat) (rd : RevData) : CvsOp :=
  if is_branch_revision rd.rev = true ∧ rd.state ≠ "dead" then
    deadSproutWalk m fuel rd.rev (initialOperation m rd)
  else initialOperation m rd

/-- Source: _FileDataCollector._is_first_on_branch in collect_data.py —
true when the revision has no parent, or when the dot counts of the
revision and of its parent differ. -/
def isFirstOnBranch (rd : RevData) : Bool :=
  match rd.parent with
  | none => true
  | some p => decide (dotCount rd.rev ≠ dotCount p)

/-- The line of development attached to an emitted CVSRevision: Trunk or
a named Branch (line_of_development module, used by set_revision_info). -/
inductive LOD where
  | trunk
  | branch (name : String)
deriving DecidableEq, Repr

/-- Source: _SymbolDataCollector.rev_to_branch_data in collect_data.py,
projected to the branch name — none for a trunk revision, otherwise the
entry of branches_data at the prefix of the revision up to its last dot.
The branches_data dictionary is embedded as an association list from
branch numbers to branch names. -/
def revToBranchName (branches : List (RevNum × String)) (r : RevNum) : Option String :=
  if is_trunk_revision r = true then none
  else ((branches.find? (fun bp => bp.1 == r.dropLast)).map Prod.snd)

/-- The fields of an emitted CVSRevision record (cvs_item module) that the
claims are about: revision number, timestamp, operation, the
first-on-branch flag and the line of development. -/
structure CVSRev where
  rev : RevNum
  timestamp : Int
  op : CvsOp
  firstOnBranch : Bool
  lod : LOD
deriving DecidableEq, Repr

/-- Source: _FileDataCollector.set_revision_info in collect_data.py,
restricted to the effects the claims are about.  It clears the inferred
default branch of the file when revision 1.1 carries a log message other
than the exact string "Initial revision" followed by a newline, resolves
the line of development (Branch with the name from rev_to_branch_data for
a branch revision, which the source reads without a None check, embedded
by getD of the empty string; Trunk otherwise), classifies the operation
with _determine_operation, computes the first-on-branch flag, and builds
the CVSRevision.  The returned pair is the emitted record together with
the updated default branch of the file. -/
def setRevisionInfo (m : List RevData) (branches : List (RevNum × String))
    (fuel : Nat) (file_default_branch : Option RevNum)
    (rd : RevData) (log : String) : CVSRev × Option RevNum :=
  ({ rev := rd.rev
     timestamp := rd.timestamp
     op := determineOperation m fuel rd
     firstOnBranch := isFirstOnBranch rd
     lod :=
       if is_branch_revision rd.rev = true then
         LOD.branch ((revToBranchName branches rd.rev).getD "")
       else LOD.trunk },
   if rd.rev = [1, 1] ∧ log ≠ "Initial revision\n" then none
   else file_default_branch)

/-- The default-branch inference state of a _FileDataCollector: the date
of revision 1.2 once seen (first_non_vendor_revision_date) and the
running default-branch head stored on the CVSFile. -/
structure DefBranchState where
  first_non_vendor_revision_date : Option Int
  file_default_branch : Option RevNum
deriving DecidableEq, Repr

/-- Source: _FileDataCollector._update_default_branch in collect_data.py.
With a declared principal branch, a revision directly on it (it starts
with the branch number followed by a dot, and the dot counts of that root
and of the revision agree, i.e. the revision has exactly one further
component) becomes the new default-branch head.  Without one, revision
1.2 records its timestamp as the moment the file left the default
branch; a vendor revision 1.1.1.N becomes the head when no such moment is
recorded yet (the source tests Python falsiness, so a recorded 0 counts
as absent) or when the revision predates it strictly. -/
def updateDefaultBranch (principal : Option RevNum) (s : DefBranchState)
    (rd : RevData) : DefBranchState :=
  match principal with
  | some db =>
    if rd.rev.take db.length = db ∧ rd.rev.length = db.length + 1 then
      { s with file_default_branch := some rd.rev }
    else s
  | none =>
    if rd.rev = [1, 2] then
      { s with first_non_vendor_revision_date := some rd.timestamp }
    else
      if vendor_revision_match rd.rev
          && (match s.first_non_vendor_revision_date with
              | none => true
              | some d => d == 0 || decide (rd.timestamp < d)) then
        { s with file_default_branch := some rd.rev }
      else s

/-- Source: the first loop of _FileDataCollector.tree_completed — apply
_update_default_branch to every revision in the order recorded in
_rev_order. -/
def inferDefaultBranch (principal : Option RevNum) (revs : List RevData) :
    DefBranchState :=
  revs.foldl (updateDefaultBranch principal) ⟨none, none⟩

/-! The timestamp resynchronization of tree_completed.  The _rev_data
dictionary of one file is embedded as an indexed family: n revisions,
a parent function on indices, and a mutable timestamp assignment passed
explicitly.  The unbounded while loops are given fuel parameters. -/

variable {n : Nat}

/-- Source: _FileDataCollector._resync_chain in collect_data.py — walk
from the given revision back through parent links; if the parent occurred
no earlier than the current revision, set the parent timestamp to the
current timestamp minus one and continue from the parent, else stop.
Returns the updated timestamps and whether any resyncing was done.  The
unbounded Python while loop is given a fuel parameter; the scan below
supplies fuel n, enough to traverse any acyclic chain of the n
revisions. -/
def resyncChain (parent : Fin n → Option (Fin n)) :
    Nat → (Fin n → Int) → Fin n → ((Fin n → Int) × Bool)
  | 0, ts, _ => (ts, false)
  | fuel + 1, ts, i =>
    match parent i with
    | none => (ts, false)
    | some p =>
      if ts p < ts i then (ts, false)
      else
        ((resyncChain parent fuel (Function.update ts p (ts i - 1)) p).1, true)

/-- Source: the for loop inside the while loop of
_FileDataCollector.tree_completed — run _resync_chain on every revision
in order; abort the scan as soon as one chain resynced, else finish with
no work done. -/
def resyncScan (parent : Fin n → Option (Fin n)) (cf : Nat) :
    List (Fin n) → (Fin n → Int) → ((Fin n → Int) × Bool)
  | [], ts => (ts, false)
  | i :: rest, ts =>
    if (resyncChain parent cf ts i).2 then ((resyncChain parent cf ts i).1, true)
    else resyncScan parent cf rest (resyncChain parent cf ts i).1

/-- Source: the while True loop of _FileDataCollector.tree_completed —
rescan all revisions until a full scan does no work.  Returns the final
timestamps and true when the fixpoint was reached (false only when the
fuel ran out first; the main theorem exhibits a sufficient fuel). -/
def tree_completed_resync (parent : Fin n → Option (Fin n))
    (order : List (Fin n)) : Nat → (Fin n → Int) → ((Fin n → Int) × Bool)
  | 0, ts => (ts, false)
  | fuel + 1, ts =>
    if (resyncScan parent n order ts).2 then
      tree_completed_resync parent order fuel (resyncScan parent n order ts).1
    else ((resyncScan parent n order ts).1, true)

/-- Termination measure for the resync loop: the total slack of the
timestamps above a lower-bound function. -/
def resyncMeasure (lb ts : Fin n → Int) : Nat :=
  ∑ i, (ts i - lb i).toNat

/-! The commit-object taxonomy of svn_commit.py.  Object construction is
embedded as a function from the shared revnum counter (the class variable
SVNCommit.revnum) and a constructor descriptor to the built commit and the
new counter value. -/

/-- The five commit constructors of svn_commit.py, with the arguments
each subclass passes: SVNInitialProjectCommit, SVNPrimaryCommit,
SVNPreCommit, SVNPostCommit and SVNSymbolCloseCommit.  CVSRevisions are
identified by their ids. -/
inductive CommitInit where
  | initialProject (date : Int)
  | primary (cRevs : List Nat)
  | preCommit (name : String)
  | postCommit (motivating : Nat) (cRevs : List Nat)
  | symbolClose (name : String) (date : Int)
deriving DecidableEq, Repr

/-- Whether a constructor descriptor is the SVNInitialProjectCommit. -/
def CommitInit.isInitial : CommitInit → Bool
  | .initialProject _ => true
  | _ => false

/-- The fields of an SVNCommit object relevant to the claims: the
assigned revision number, the list of CVSRevision ids, the symbolic name
if one is filled, the motivating revision number for default-branch
post-commits, and the date. -/
structure SVNCommitObj where
  revnum : Nat
  cvs_revs : List Nat
  symbolic_name : Option String
  motivating_revnum : Option Nat
  date : Int
deriving DecidableEq, Repr

/-- Source: SVNCommit.\_\_init\_\_ together with the subclass constructors
of svn_commit.py.  SVNInitialProjectCommit passes the explicit revision
number 1 and sets its date; every other subclass passes no revision
number, so the base constructor draws the shared counter and increments
it.  cvs_revs, symbolic_name and motivating_revnum are set per subclass
(add_revision, set_symbolic_name, set_motivating_revnum). -/
def mkSVNCommit (counter : Nat) : CommitInit → SVNCommitObj × Nat
  | .initialProject date =>
    ({ revnum := 1, cvs_revs := [], symbolic_name := none,
       motivating_revnum := none, date := date }, counter)
  | .primary cRevs =>
    ({ revnum := counter, cvs_revs := cRevs, symbolic_name := none,
       motivating_revnum := none, date := 0 }, counter + 1)
  | .preCommit name =>
    ({ revnum := counter, cvs_revs := [], symbolic_name := some name,
       motivating_revnum := none, date := 0 }, counter + 1)
  | .postCommit mot cRevs =>
    ({ revnum := counter, cvs_revs := cRevs, symbolic_name := none,
       motivating_revnum := some mot, date := 0 }, counter + 1)
  | .symbolClose name date =>
    ({ revnum := counter, cvs_revs := [], symbolic_name := some name,
       motivating_revnum := none, date := date }, counter + 1)

/-- Run a sequence of commit constructions threading the shared revnum
counter, as creation order threads the class variable SVNCommit.revnum
(initialized to 2 in the source). -/
def runCommits (counter : Nat) : List CommitInit → List SVNCommitObj
  | [] => []
  | k :: ks => (mkSVNCommit counter k).1 :: runCommits (mkSVNCommit counter k).2 ks

/-- The number of constructions in a list that draw from the shared
counter (all except the initial project commit). -/
def countAuto (ks : List CommitInit) : Nat :=
  (ks.filter (fun k => !k.isInitial)).length

/-- A single-quote character as a string, for building the manufactured
log messages of svn_commit.py. -/
def squote : String := String.singleton (Char.ofNat 39)

/-- Modelled from the spec: clean_symbolic_name lives in the common
module, which is not under src/; per the spec it strips tool-private
escapes from a symbol name.  The embedding abstracts over it as a
function parameter wherever it is applied. -/
def cleanedName (clean : String → String) (name : String) : String :=
  clean name

/-- Source: SVNCommit._log_msg_for_symbolic_name_commit in svn_commit.py
— the type word is tag when is_tag is set and branch otherwise, the
separator is a newline when the cleaned symbolic name has at least 13
characters and a single space otherwise, and the message interpolates
them into the fixed manufactured-commit sentence. -/
def logMsgForSymbolicNameCommit (clean : String → String)
    (c : SVNCommitObj) (is_tag : Bool) : String :=
  "This commit was manufactured by cvs2svn to create "
    ++ (if is_tag then "tag" else "branch")
    ++ (if 13 ≤ (cleanedName clean (c.symbolic_name.getD "")).length
        then "\n" else " ")
    ++ squote ++ cleanedName clean (c.symbolic_name.getD "") ++ squote ++ "."

/-- Source: SVNCommit._log_msg_for_default_branch_commit in
svn_commit.py. -/
def logMsgForDefaultBranchCommit (motivating : Nat) : String :=
  "This commit was generated by cvs2svn to compensate for changes in r"
    ++ toString motivating
    ++ ",\nwhich included commits to RCS files with non-trunk default branches.\n"

/-- Source: SVNCommit.get_log_msg in svn_commit.py — dispatch on whether
the commit fills a symbolic name, then on whether it has a motivating
revision number, else return the stored log message. -/
def getLogMsg (clean : String → String) (c : SVNCommitObj) (is_tag : Bool)
    (stored : String) : String :=
  match c.symbolic_name with
  | some _ => logMsgForSymbolicNameCommit clean c is_tag
  | none =>
    match c.motivating_revnum with
    | some r => logMsgForDefaultBranchCommit r
    | none => stored

/-! The error boundary of CollectData.process_file.  The rcsparse parser
and the filesystem are external collaborators: a parse run is embedded by
its observable outcome — the list of CVSRevision ids the callbacks handed
to add_cvs_revision before the run finished, failed with a parse or value
error, or raised an unknown exception — and the existence of an Attic
sibling is a boolean input. -/

/-- The observable outcome of running cvs2svn_rcsparse.parse on a file:
emitted is the list of CVSRevision ids handed to add_cvs_revision before
the outcome was reached. -/
inductive ParseOutcome where
  | ok (emitted : List Nat)
  | invalid (emitted : List Nat)
  | raised (emitted : List Nat)
deriving DecidableEq, Repr

/-- The artifact-store state owned by CollectData that the claims are
about: the fatal-error list, and the committed revision ids (the revision
database and the all-revisions log are appended together by
add_cvs_revision). -/
structure CollectState where
  fatal_errors : List String
  revs_log : List Nat
deriving DecidableEq, Repr

/-- Source: CollectData.add_cvs_revision in collect_data.py — log the
revision to the revision database and append its id to the all-revisions
file. -/
def add_cvs_revision (s : CollectState) (id : Nat) : CollectState :=
  { s with revs_log := s.revs_log ++ [id] }

/-- The effect on the collector of the add_cvs_revision calls made while
a file is parsed. -/
def commitEmitted (s : CollectState) (emitted : List Nat) : CollectState :=
  emitted.foldl add_cvs_revision s

/-- The fatal-error message for an attic conflict (error_prefix lives in
the common module outside src/; the message text is immaterial to the
claims). -/
def atticError (path attic_path : String) : String :=
  "error: A CVS repository cannot contain both " ++ path ++ " and " ++ attic_path

/-- The fatal-error message for an unparseable archive. -/
def invalidError (path : String) : String :=
  "error: " ++ path ++ " is not a valid ,v file"

/-- Source: CollectData.process_file in collect_data.py.  When the file
is outside the Attic but an Attic sibling exists, a fatal error is
appended — and the source then parses the file anyway.  The parse runs
under the exception boundary: a parse or value error appends a fatal
error and returns normally, an unknown exception propagates (embedded as
the error case, carrying the state at the raise).  Revision ids emitted
by the callbacks before an outcome are committed by add_cvs_revision as
they arrive. -/
def process_file (s : CollectState) (in_attic attic_exists : Bool)
    (path attic_path : String) (parse : ParseOutcome) :
    Except CollectState CollectState :=
  let s1 := if in_attic = false ∧ attic_exists = true then
      { s with fatal_errors := s.fatal_errors ++ [atticError path attic_path] }
    else s
  match parse with
  | .ok em => Except.ok (commitEmitted s1 em)
  | .invalid em =>
    Except.ok
      { commitEmitted s1 em with
        fatal_errors := (commitEmitted s1 em).fatal_errors ++ [invalidError path] }
  | .raised em => Except.error (commitEmitted s1 em)

/-! Theorems.  Each claim theorem is stated over the embedded definitions
above; helper lemmas come first. -/

/-- C4: define_symbol classifies a symbol as a branch exactly when its raw
revision number matches the branch grammar — a nonzero even number 2*k of
leading components, an optional interposed zero segment, and a final
component — normalizing an interposed zero away, so that 1.3.0.2 is
recorded as branch number 1.3.2, while 1.7 and 1.7.2.1 define tags. -/
theorem define_symbol_branch_grammar :
    (∀ l : RevNum, (branchTagMatch l).isSome = true ↔
        ∃ k, 1 ≤ k ∧ (l.length = 2 * k + 1 ∨
          (l.length = 2 * k + 2 ∧ l.get? (2 * k) = some 0))) ∧
    classifySymbol [1, 3, 0, 2] = SymbolClass.branch [1, 3, 2] ∧
    classifySymbol [1, 7] = SymbolClass.tag [1, 7] ∧
    classifySymbol [1, 7, 2, 1] = SymbolClass.tag [1, 7, 2, 1] := by
  refine ⟨?_, by decide, by decide, by decide⟩
  intro l
  constructor
  · intro h
    unfold branchTagMatch at h
    split_ifs at h with h1 h2
    · exact ⟨(l.length - 1) / 2, by omega, Or.inl (by omega)⟩
    · refine ⟨(l.length - 2) / 2, by omega, Or.inr ⟨by omega, ?_⟩⟩
      have e : 2 * ((l.length - 2) / 2) = l.length - 2 := by omega
      rw [e]
      exact h2.2.2
    · simp at h
  · rintro ⟨k, hk, hodd | ⟨hlen, hget⟩⟩
    · unfold branchTagMatch
      rw [if_pos ⟨by omega, by omega⟩]
      rfl
    · unfold branchTagMatch
      rw [if_neg (by omega),
        if_pos ⟨by omega, by omega, by rw [show l.length - 2 = 2 * k by omega]; exact hget⟩]
      rfl

/-- C8: for an archive defining revisions 1.1, 1.1.1.1 and 1.1.1.2 with no
principal-branch declaration, the inferred default-branch head is 1.1.1.2;
and at set_revision_info time, a revision 1.1 whose log message differs
from the exact string "Initial revision" plus newline clears any inferred
default branch. -/
theorem default_branch_inference_and_clearing :
    (inferDefaultBranch none
        [⟨[1, 1], "Exp", none, 100⟩, ⟨[1, 1, 1, 1], "Exp", none, 200⟩,
         ⟨[1, 1, 1, 2], "Exp", none, 300⟩]).file_default_branch
      = some [1, 1, 1, 2] ∧
    ∀ (m : List RevData) (branches : List (RevNum × String)) (fuel : Nat)
      (fdb : Option RevNum) (rd : RevData) (log : String),
      rd.rev = [1, 1] → log ≠ "Initial revision\n" →
      (setRevisionInfo m branches fuel fdb rd log).2 = none := by
  refine ⟨by decide, ?_⟩
  intro m branches fuel fdb rd log h1 h2
  simp [setRevisionInfo, h1, h2]

/-- Witness for C8: clearing the inferred default branch 1.1.1.2 when
revision 1.1 carries the log message of scenario S5. -/
theorem default_branch_inference_and_clearing_witness :
    (setRevisionInfo [] [] 1 (some [1, 1, 1, 2]) ⟨[1, 1], "Exp", none, 100⟩
        "Merged foo\n").2 = none :=
  default_branch_inference_and_clearing.2 [] [] 1 (some [1, 1, 1, 2])
    ⟨[1, 1], "Exp", none, 100⟩ "Merged foo\n" rfl (by decide)

/-- C9: for every commit that fills a symbolic name, get_log_msg returns
exactly the manufactured sentence, with type word tag for a tag and
branch otherwise, separator a single space when the cleaned name has
fewer than 13 characters and a newline otherwise, around the cleaned
name in single quotes. -/
theorem symbolic_name_log_message (clean : String → String)
    (c : SVNCommitObj) (is_tag : Bool) (stored : String) (name : String)
    (h : c.symbolic_name = some name) :
    getLogMsg clean c is_tag stored =
      "This commit was manufactured by cvs2svn to create "
        ++ (if is_tag then "tag" else "branch")
        ++ (if (clean name).length < 13 then " " else "\n")
        ++ squote ++ clean name ++ squote ++ "." := by
  by_cases h13 : (clean name).length < 13
  · simp [getLogMsg, h, logMsgForSymbolicNameCommit, cleanedName,
      if_pos h13, if_neg (by omega : ¬ 13 ≤ (clean name).length)]
  · simp [getLogMsg, h, logMsgForSymbolicNameCommit, cleanedName,
      if_neg h13, if_pos (by omega : 13 ≤ (clean name).length)]

/-- Witness for C9: the log message manufactured for a short tag name. -/
theorem symbolic_name_log_message_witness :
    getLogMsg id ⟨1, [], some "V1", none, 0⟩ true "" =
      "This commit was manufactured by cvs2svn to create "
        ++ "tag" ++ " " ++ squote ++ "V1" ++ squote ++ "." := by
  rw [symbolic_name_log_message id ⟨1, [], some "V1", none, 0⟩ true "" "V1" rfl]
  rfl

/-- C10: the first-on-branch flag of an emitted CVSRevision is true
exactly when the revision has no parent or its component count differs
from that of its parent; in particular the root revision 1.1 (no parent)
is flagged first-on-branch even though its line of development is
Trunk. -/
theorem first_on_branch_flag (m : List RevData)
    (branches : List (RevNum × String)) (fuel : Nat) (fdb : Option RevNum)
    (rd : RevData) (log : String) (hr : rd.rev ≠ [])
    (hp : ∀ p, rd.parent = some p → p ≠ []) :
    ((setRevisionInfo m branches fuel fdb rd log).1.firstOnBranch = true ↔
        rd.parent = none ∨
        ∃ p, rd.parent = some p ∧ rd.rev.length ≠ p.length) ∧
    (rd.rev = [1, 1] → rd.parent = none →
      (setRevisionInfo m branches fuel fdb rd log).1.firstOnBranch = true ∧
      (setRevisionInfo m branches fuel fdb rd log).1.lod = LOD.trunk) := by
  constructor
  · cases hpar : rd.parent with
    | none => simp [setRevisionInfo, isFirstOnBranch, hpar]
    | some p =>
      have hpne := hp p hpar
      have h1 : 0 < rd.rev.length := List.length_pos.mpr hr
      have h2 : 0 < p.length := List.length_pos.mpr hpne
      simp only [setRevisionInfo, isFirstOnBranch, hpar, dotCount,
        decide_eq_true_eq]
      constructor
      · intro hne
        exact Or.inr ⟨p, rfl, by omega⟩
      · rintro (hc | ⟨p', hp', hne⟩)
        · exact absurd hc (by simp)
        · have hpp : p = p' := Option.some_injective _ hp'
          subst hpp
          omega
  · intro h11 hpar
    constructor
    · simp [setRevisionInfo, isFirstOnBranch, hpar]
    · simp [setRevisionInfo, is_branch_revision, h11, dotCount]

/-- Witness for C10: the root revision 1.1 of a file is flagged
first-on-branch with line of development Trunk. -/
theorem first_on_branch_flag_witness :
    (setRevisionInfo [] [] 1 none ⟨[1, 1], "Exp", none, 5⟩ "x").1.firstOnBranch
        = true ∧
    (setRevisionInfo [] [] 1 none ⟨[1, 1], "Exp", none, 5⟩ "x").1.lod
        = LOD.trunk :=
  (first_on_branch_flag [] [] 1 none ⟨[1, 1], "Exp", none, 5⟩ "x"
    (by decide) (fun p h => by cases h)).2 rfl rfl

/-- The issue-89 walk only ever replaces the operation by change: its
result is the starting operation or change. -/
lemma deadSproutWalk_cases (m : List RevData) :
    ∀ (fuel : Nat) (cur : RevNum) (op : CvsOp),
      deadSproutWalk m fuel cur op = op ∨
      deadSproutWalk m fuel cur op = CvsOp.change := by
  intro fuel
  induction fuel with
  | zero => intro cur op; exact Or.inl rfl
  | succ f ih =>
    intro cur op
    unfold deadSproutWalk
    cases hb : (lookupRev m cur).bind RevData.parent with
    | none => exact Or.inl rfl
    | some prev =>
      dsimp only
      by_cases hc : cur = [] ∨ prev = []
      · rw [if_pos hc]; exact Or.inl rfl
      · rw [if_neg hc]
        by_cases hcond : is_same_line_of_development cur prev = false
            ∧ stateOf m cur = "dead" ∧ stateOf m prev ≠ "dead"
        · rw [if_pos hcond]
          rcases ih prev CvsOp.change with h1 | h1 <;> exact Or.inr h1
        · rw [if_neg hcond]
          exact ih prev op

/-- The initial classification yields add only when the revision has no
looked-up previous revision or that revision is dead. -/
lemma initialOperation_add (m : List RevData) (rd : RevData)
    (h : initialOperation m rd = CvsOp.add) :
    rd.parent.bind (lookupRev m) = none ∨
    ∃ pd, rd.parent.bind (lookupRev m) = some pd ∧ pd.state = "dead" := by
  unfold initialOperation at h
  cases hb : rd.parent.bind (lookupRev m) with
  | none => exact Or.inl rfl
  | some prev =>
    rw [hb] at h
    dsimp only at h
    by_cases h1 : rd.state = "dead"
    · rw [if_pos h1] at h; exact CvsOp.noConfusion h
    · rw [if_neg h1] at h
      by_cases h2 : prev.state = "dead"
      · exact Or.inr ⟨prev, rfl, h2⟩
      · rw [if_neg h2] at h; exact CvsOp.noConfusion h

/-- The initial classification yields delete only for a dead revision. -/
lemma initialOperation_delete (m : List RevData) (rd : RevData)
    (h : initialOperation m rd = CvsOp.delete) : rd.state = "dead" := by
  unfold initialOperation at h
  by_cases h1 : rd.state = "dead"
  · exact h1
  · exfalso
    cases hb : rd.parent.bind (lookupRev m) with
    | none => rw [hb, if_neg h1] at h; exact CvsOp.noConfusion h
    | some prev =>
      rw [hb] at h
      dsimp only at h
      rw [if_neg h1] at h
      by_cases h2 : prev.state = "dead"
      · rw [if_pos h2] at h; exact CvsOp.noConfusion h
      · rw [if_neg h2] at h; exact CvsOp.noConfusion h

/-- C2: for every CVSRevision emitted by set_revision_info, operation add
implies that the revision has no previous revision or that the previous
revision is dead, and operation delete implies that the revision itself
is dead — even after the dead-predecessors-on-branch special case. -/
theorem set_revision_info_add_delete_invariants (m : List RevData)
    (branches : List (RevNum × String)) (fuel : Nat) (fdb : Option RevNum)
    (rd : RevData) (log : String) :
    ((setRevisionInfo m branches fuel fdb rd log).1.op = CvsOp.add →
        rd.parent.bind (lookupRev m) = none ∨
        ∃ pd, rd.parent.bind (lookupRev m) = some pd ∧ pd.state = "dead") ∧
    ((setRevisionInfo m branches fuel fdb rd log).1.op = CvsOp.delete →
        rd.state = "dead") := by
  have hop : (setRevisionInfo m branches fuel fdb rd log).1.op
      = determineOperation m fuel rd := rfl
  constructor
  · intro hadd
    rw [hop] at hadd
    unfold determineOperation at hadd
    by_cases hg : is_branch_revision rd.rev = true ∧ rd.state ≠ "dead"
    · rw [if_pos hg] at hadd
      rcases deadSproutWalk_cases m fuel rd.rev (initialOperation m rd)
        with he | he
      · exact initialOperation_add m rd (he.symm.trans hadd)
      · exact CvsOp.noConfusion (he.symm.trans hadd)
    · rw [if_neg hg] at hadd
      exact initialOperation_add m rd hadd
  · intro hdel
    rw [hop] at hdel
    unfold determineOperation at hdel
    by_cases hg : is_branch_revision rd.rev = true ∧ rd.state ≠ "dead"
    · exact absurd (by
        rw [if_pos hg] at hdel
        rcases deadSproutWalk_cases m fuel rd.rev (initialOperation m rd)
          with he | he
        · exact initialOperation_delete m rd (he.symm.trans hdel)
        · exact absurd (he.symm.trans hdel) (by simp)) hg.2
    · rw [if_neg hg] at hdel
      exact initialOperation_delete m rd hdel

/-- Witness for C2: the root revision 1.1 in state Exp is classified add
and indeed has no previous revision. -/
theorem set_revision_info_add_delete_invariants_witness :
    (none : Option RevNum).bind (lookupRev [⟨[1, 1], "Exp", none, 0⟩]) = none ∨
    ∃ pd, (none : Option RevNum).bind (lookupRev [⟨[1, 1], "Exp", none, 0⟩])
        = some pd ∧ pd.state = "dead" :=
  (set_revision_info_add_delete_invariants [⟨[1, 1], "Exp", none, 0⟩] [] 1
    none ⟨[1, 1], "Exp", none, 0⟩ "l").1 rfl

/-- Once the issue-89 walk has switched to change, it stays at change. -/
lemma deadSproutWalk_change (m : List RevData) :
    ∀ (fuel : Nat) (cur : RevNum),
      deadSproutWalk m fuel cur CvsOp.change = CvsOp.change := by
  intro fuel
  induction fuel with
  | zero => intro cur; rfl
  | succ f ih =>
    intro cur
    unfold deadSproutWalk
    cases hb : (lookupRev m cur).bind RevData.parent with
    | none => rfl
    | some prev =>
      dsimp only
      by_cases hc : cur = [] ∨ prev = []
      · rw [if_pos hc]
      · rw [if_neg hc]
        by_cases hcond : is_same_line_of_development cur prev = false
            ∧ stateOf m cur = "dead" ∧ stateOf m prev ≠ "dead"
        · rw [if_pos hcond]; exact ih prev
        · rw [if_neg hcond]; exact ih prev

/-- If some step visited by the issue-89 walk crosses lines of
development with a dead child and a live parent, the walk returns
change. -/
lemma deadSproutWalk_of_step (m : List RevData) :
    ∀ (fuel : Nat) (cur : RevNum) (op : CvsOp),
      (∃ s ∈ walkSteps m fuel cur,
          is_same_line_of_development s.1 s.2 = false ∧
          stateOf m s.1 = "dead" ∧ stateOf m s.2 ≠ "dead") →
      deadSproutWalk m fuel cur op = CvsOp.change := by
  intro fuel
  induction fuel with
  | zero =>
    intro cur op h
    simp [walkSteps] at h
  | succ f ih =>
    intro cur op h
    unfold walkSteps at h
    unfold deadSproutWalk
    cases hb : (lookupRev m cur).bind RevData.parent with
    | none => rw [hb] at h; simp at h
    | some prev =>
      rw [hb] at h
      dsimp only at h ⊢
      by_cases hc : cur = [] ∨ prev = []
      · rw [if_pos hc] at h; simp at h
      · rw [if_neg hc] at h
        rw [if_neg hc]
        rcases h with ⟨s, hs, hcond⟩
        rcases List.mem_cons.mp hs with rfl | hs'
        · rw [if_pos hcond]
          exact deadSproutWalk_change m f prev
        · exact ih prev _ ⟨s, hs', hcond⟩

/-- C3: for a branch revision in a non-dead state, whenever walking back
through the parent chain crosses lines of development at a step whose
child is dead and whose parent is alive, the emitted operation is change
(upgraded from add) — as in the scenario 1.3 alive, 1.3.2.1 dead,
1.3.2.2 alive, where 1.3.2.2 is classified change. -/
theorem dead_predecessors_live_sprout_change (m : List RevData)
    (branches : List (RevNum × String)) (fuel : Nat) (fdb : Option RevNum)
    (rd : RevData) (log : String)
    (hb : is_branch_revision rd.rev = true) (hs : rd.state ≠ "dead")
    (hstep : ∃ s ∈ walkSteps m fuel rd.rev,
        is_same_line_of_development s.1 s.2 = false ∧
        stateOf m s.1 = "dead" ∧ stateOf m s.2 ≠ "dead") :
    (setRevisionInfo m branches fuel fdb rd log).1.op = CvsOp.change := by
  show determineOperation m fuel rd = CvsOp.change
  rw [determineOperation, if_pos ⟨hb, hs⟩]
  exact deadSproutWalk_of_step m fuel rd.rev _ hstep

/-- Witness for C3: the scenario of spec S6 — branch revision 1.3.2.2 in
state Exp above dead 1.3.2.1 above live trunk 1.3 is classified
change. -/
theorem dead_predecessors_live_sprout_change_witness :
    (setRevisionInfo
        [⟨[1, 3], "Exp", none, 10⟩, ⟨[1, 3, 2, 1], "dead", some [1, 3], 20⟩,
         ⟨[1, 3, 2, 2], "Exp", some [1, 3, 2, 1], 30⟩]
        [([1, 3, 2], "B")] 5 none
        ⟨[1, 3, 2, 2], "Exp", some [1, 3, 2, 1], 30⟩ "m").1.op
      = CvsOp.change :=
  dead_predecessors_live_sprout_change
    [⟨[1, 3], "Exp", none, 10⟩, ⟨[1, 3, 2, 1], "dead", some [1, 3], 20⟩,
     ⟨[1, 3, 2, 2], "Exp", some [1, 3, 2, 1], 30⟩]
    [([1, 3, 2], "B")] 5 none
    ⟨[1, 3, 2, 2], "Exp", some [1, 3, 2, 1], 30⟩ "m"
    (by decide) (by decide) (by decide)

/-- Committing a list of emitted revision ids appends them to the
all-revisions log and leaves the fatal-error list unchanged. -/
lemma commitEmitted_eq : ∀ (em : List Nat) (s : CollectState),
    commitEmitted s em = ⟨s.fatal_errors, s.revs_log ++ em⟩ := by
  intro em
  induction em with
  | nil => intro s; simp [commitEmitted]
  | cons a rest ih =>
    intro s
    have := ih (add_cvs_revision s a)
    simp only [commitEmitted, List.foldl] at this ⊢
    rw [this]
    simp [add_cvs_revision]

/-- Counterexample for C5: a file outside the Attic with an existing
Attic sibling has its fatal error recorded, yet the file is parsed anyway
and its revision (id 7) is committed to the artifact stores, so the
stores are not left untouched. -/
theorem process_file_commits_from_failed_file :
    process_file ⟨[], []⟩ false true "proj/foo,v" "proj/Attic/foo,v"
        (ParseOutcome.ok [7])
      = Except.ok ⟨[atticError "proj/foo,v" "proj/Attic/foo,v"], [7]⟩ ∧
    ([7] : List Nat) ≠ [] :=
  ⟨rfl, by decide⟩

/-- C5 (amended): when per-file analysis fails — attic conflict or an
invalid archive — a fatal error is recorded and process_file returns
normally so the batch continues; but the failed file is still parsed and
every revision emitted before the failure remains committed to the
artifact stores. -/
theorem process_file_records_error_and_continues (s : CollectState)
    (ia ae : Bool) (p ap : String) (em : List Nat)
    (hfail : ia = false ∧ ae = true) :
    (∃ s1, process_file s ia ae p ap (ParseOutcome.ok em) = Except.ok s1 ∧
        atticError p ap ∈ s1.fatal_errors ∧
        s1.revs_log = s.revs_log ++ em) ∧
    (∃ s2, process_file s ia ae p ap (ParseOutcome.invalid em) = Except.ok s2 ∧
        atticError p ap ∈ s2.fatal_errors ∧
        invalidError p ∈ s2.fatal_errors ∧
        s2.revs_log = s.revs_log ++ em) := by
  obtain ⟨h1, h2⟩ := hfail
  subst h1; subst h2
  constructor
  · refine ⟨_, rfl, ?_, ?_⟩
    · simp [process_file, commitEmitted_eq]
    · simp [process_file, commitEmitted_eq]
  · refine ⟨_, rfl, ?_, ?_, ?_⟩
    · simp [process_file, commitEmitted_eq]
    · simp [process_file, commitEmitted_eq]
    · simp [process_file, commitEmitted_eq]

/-- Witness for C5 (amended): a concrete rejected file whose one emitted
revision stays committed while the error is recorded. -/
theorem process_file_records_error_and_continues_witness :
    (∃ s1, process_file ⟨[], []⟩ false true "a,v" "Attic/a,v"
          (ParseOutcome.ok [3]) = Except.ok s1 ∧
        atticError "a,v" "Attic/a,v" ∈ s1.fatal_errors ∧
        s1.revs_log = ([] : List Nat) ++ [3]) ∧
    (∃ s2, process_file ⟨[], []⟩ false true "a,v" "Attic/a,v"
          (ParseOutcome.invalid [3]) = Except.ok s2 ∧
        atticError "a,v" "Attic/a,v" ∈ s2.fatal_errors ∧
        invalidError "a,v" ∈ s2.fatal_errors ∧
        s2.revs_log = ([] : List Nat) ++ [3]) :=
  process_file_records_error_and_continues ⟨[], []⟩ false true "a,v"
    "Attic/a,v" [3] ⟨rfl, rfl⟩

/-- Numbering and exclusivity of commit objects built from a starting
counter value of at least 2: revnum 1 appears exactly on the initial
project commit, an auto-numbered commit gets the counter plus the count
of earlier auto-numbered commits, and no commit carries both a non-empty
revision list and a symbolic name. -/
lemma runCommits_spec (cnt : Nat) (hcnt : 2 ≤ cnt) :
    ∀ (inits : List CommitInit) (i : Nat) (c : SVNCommitObj) (k : CommitInit),
      (runCommits cnt inits).get? i = some c → inits.get? i = some k →
      (c.revnum = 1 ↔ k.isInitial = true) ∧
      (k.isInitial = false → c.revnum = cnt + countAuto (inits.take i)) ∧
      ¬(c.cvs_revs ≠ [] ∧ c.symbolic_name ≠ none) := by
  intro inits
  induction inits generalizing cnt with
  | nil => intro i c k hc hk; simp [runCommits] at hc
  | cons k0 ks ih =>
    intro i c k hc hk
    cases i with
    | zero =>
      simp only [runCommits, List.get?] at hc hk
      obtain rfl : (mkSVNCommit cnt k0).1 = c := Option.some.inj hc
      obtain rfl : k0 = k := Option.some.inj hk
      cases k0 <;>
        simp [mkSVNCommit, CommitInit.isInitial, countAuto] <;> omega
    | succ i' =>
      simp only [runCommits, List.get?] at hc hk
      have hcnt' : 2 ≤ (mkSVNCommit cnt k0).2 := by
        cases k0 <;> simp [mkSVNCommit] <;> omega
      obtain ⟨g1, g2, g3⟩ := ih (mkSVNCommit cnt k0).2 hcnt' i' c k hc hk
      refine ⟨g1, ?_, g3⟩
      intro hki
      rw [g2 hki]
      cases k0 <;>
        simp [mkSVNCommit, countAuto, CommitInit.isInitial, List.take,
          List.filter] <;> omega

/-- C6: commit objects satisfy revnum 1 exactly for the initial project
commit; commits constructed without an explicit revision number draw
consecutive numbers 2, 3, ... from the shared counter in creation order;
and a commit never carries both a non-empty CVSRevision list and a
symbolic name. -/
theorem svn_commit_numbering_and_exclusivity (inits : List CommitInit)
    (i : Nat) (c : SVNCommitObj) (k : CommitInit)
    (hc : (runCommits 2 inits).get? i = some c)
    (hk : inits.get? i = some k) :
    (c.revnum = 1 ↔ k.isInitial = true) ∧
    (k.isInitial = false → c.revnum = 2 + countAuto (inits.take i)) ∧
    ¬(c.cvs_revs ≠ [] ∧ c.symbolic_name ≠ none) :=
  runCommits_spec 2 (le_refl 2) inits i c k hc hk

/-- Witness for C6: in the sequence initial, primary, pre-commit the
third commit (the second auto-numbered one) receives revision number
3 = 2 + 1. -/
theorem svn_commit_numbering_and_exclusivity_witness :
    (⟨3, [], some "b", none, 0⟩ : SVNCommitObj).revnum =
      2 + countAuto ([CommitInit.initialProject 0, CommitInit.primary [5],
        CommitInit.preCommit "b"].take 2) :=
  (svn_commit_numbering_and_exclusivity
    [CommitInit.initialProject 0, CommitInit.primary [5],
     CommitInit.preCommit "b"] 2 ⟨3, [], some "b", none, 0⟩
    (CommitInit.preCommit "b") rfl rfl).2.1 rfl

/-- A chain walk that did no resyncing leaves the timestamps unchanged. -/
lemma resyncChain_false_eq (parent : Fin n → Option (Fin n)) (fuel : Nat)
    (ts : Fin n → Int) (i : Fin n)
    (h : (resyncChain parent fuel ts i).2 = false) :
    (resyncChain parent fuel ts i).1 = ts := by
  cases fuel with
  | zero => rfl
  | succ f =>
    cases hp : parent i with
    | none => simp [resyncChain, hp]
    | some p =>
      by_cases hlt : ts p < ts i
      · simp [resyncChain, hp, hlt]
      · simp [resyncChain, hp, hlt] at h

/-- A chain walk never increases any timestamp. -/
lemma resyncChain_le (parent : Fin n → Option (Fin n)) :
    ∀ (fuel : Nat) (ts : Fin n → Int) (i j : Fin n),
      (resyncChain parent fuel ts i).1 j ≤ ts j := by
  intro fuel
  induction fuel with
  | zero => intro ts i j; exact le_refl _
  | succ f ih =>
    intro ts i j
    cases hp : parent i with
    | none => simp [resyncChain, hp]
    | some p =>
      by_cases hlt : ts p < ts i
      · simp [resyncChain, hp, hlt]
      · simp only [resyncChain, hp, if_neg hlt]
        refine le_trans (ih _ p j) ?_
        rw [Function.update_apply]
        by_cases hj : j = p
        · rw [if_pos hj, hj]
          omega
        · rw [if_neg hj]

/-- A chain walk preserves any lower bound that drops by at least one
across every parent link. -/
lemma resyncChain_lb (parent : Fin n → Option (Fin n)) (lb : Fin n → Int)
    (hstep : ∀ i p, parent i = some p → lb p ≤ lb i - 1) :
    ∀ (fuel : Nat) (ts : Fin n → Int) (i : Fin n),
      (∀ j, lb j ≤ ts j) → ∀ j, lb j ≤ (resyncChain parent fuel ts i).1 j := by
  intro fuel
  induction fuel with
  | zero => intro ts i h j; exact h j
  | succ f ih =>
    intro ts i h j
    cases hp : parent i with
    | none => simp [resyncChain, hp]; exact h j
    | some p =>
      by_cases hlt : ts p < ts i
      · simp [resyncChain, hp, hlt]; exact h j
      · simp only [resyncChain, hp, if_neg hlt]
        refine ih _ p ?_ j
        intro j'
        rw [Function.update_apply]
        by_cases hj : j' = p
        · rw [if_pos hj, hj]
          have h1 := hstep i p hp
          have h2 := h i
          omega
        · rw [if_neg hj]; exact h j'

/-- A chain walk that resynced strictly decreased some timestamp. -/
lemma resyncChain_true_lt (parent : Fin n → Option (Fin n)) (fuel : Nat)
    (ts : Fin n → Int) (i : Fin n)
    (h : (resyncChain parent fuel ts i).2 = true) :
    ∃ j, (resyncChain parent fuel ts i).1 j < ts j := by
  cases fuel with
  | zero => simp [resyncChain] at h
  | succ f =>
    cases hp : parent i with
    | none => simp [resyncChain, hp] at h
    | some p =>
      by_cases hlt : ts p < ts i
      · simp [resyncChain, hp, hlt] at h
      · refine ⟨p, ?_⟩
        simp only [resyncChain, hp, if_neg hlt]
        have h1 := resyncChain_le parent f (Function.update ts p (ts i - 1)) p p
        rw [Function.update_same] at h1
        omega

/-- A scan that did no work leaves the timestamps unchanged. -/
lemma resyncScan_false_eq (parent : Fin n → Option (Fin n)) (cf : Nat) :
    ∀ (order : List (Fin n)) (ts : Fin n → Int),
      (resyncScan parent cf order ts).2 = false →
      (resyncScan parent cf order ts).1 = ts := by
  intro order
  induction order with
  | nil => intro ts h; rfl
  | cons i0 rest ih =>
    intro ts h
    cases hb : (resyncChain parent cf ts i0).2 with
    | true => simp [resyncScan, hb] at h
    | false =>
      have he := resyncChain_false_eq parent cf ts i0 hb
      simp only [resyncScan, hb, Bool.false_eq_true, if_false] at h ⊢
      rw [he] at h ⊢
      exact ih ts h

/-- After a scan that did no work, every revision of the order with a
parent has a strictly earlier parent: with positive chain fuel, the very
first step of its chain walk must have found the parent strictly
earlier. -/
lemma resyncScan_false_inv (parent : Fin n → Option (Fin n)) (cf : Nat)
    (hcf : 0 < cf) :
    ∀ (order : List (Fin n)) (ts : Fin n → Int),
      (resyncScan parent cf order ts).2 = false →
      ∀ i ∈ order, ∀ p, parent i = some p → ts p < ts i := by
  intro order
  induction order with
  | nil => intro ts h i hi; simp at hi
  | cons i0 rest ih =>
    intro ts h i hi p hp
    cases hb : (resyncChain parent cf ts i0).2 with
    | true => simp [resyncScan, hb] at h
    | false =>
      rcases List.mem_cons.mp hi with rfl | hrest
      · by_cases hlt : ts p < ts i
        · exact hlt
        · exfalso
          cases cf with
          | zero => omega
          | succ c =>
            have : (resyncChain parent (c + 1) ts i).2 = true := by
              simp [resyncChain, hp, hlt]
            rw [this] at hb
            exact Bool.noConfusion hb
      · have he := resyncChain_false_eq parent cf ts i0 hb
        simp only [resyncScan, hb, Bool.false_eq_true, if_false] at h
        rw [he] at h
        exact ih ts h i hrest p hp

/-- A scan never increases any timestamp. -/
lemma resyncScan_le (parent : Fin n → Option (Fin n)) (cf : Nat) :
    ∀ (order : List (Fin n)) (ts : Fin n → Int) (j : Fin n),
      (resyncScan parent cf order ts).1 j ≤ ts j := by
  intro order
  induction order with
  | nil => intro ts j; exact le_refl _
  | cons i0 rest ih =>
    intro ts j
    cases hb : (resyncChain parent cf ts i0).2 with
    | true =>
      simp only [resyncScan, hb, if_true]
      exact resyncChain_le parent cf ts i0 j
    | false =>
      have he := resyncChain_false_eq parent cf ts i0 hb
      simp only [resyncScan, hb, Bool.false_eq_true, if_false]
      rw [he]
      exact ih ts j

/-- A scan preserves any lower bound that drops across parent links. -/
lemma resyncScan_lb (parent : Fin n → Option (Fin n)) (cf : Nat)
    (lb : Fin n → Int)
    (hstep : ∀ i p, parent i = some p → lb p ≤ lb i - 1) :
    ∀ (order : List (Fin n)) (ts : Fin n → Int),
      (∀ j, lb j ≤ ts j) → ∀ j, lb j ≤ (resyncScan parent cf order ts).1 j := by
  intro order
  induction order with
  | nil => intro ts h j; exact h j
  | cons i0 rest ih =>
    intro ts h j
    cases hb : (resyncChain parent cf ts i0).2 with
    | true =>
      simp only [resyncScan, hb, if_true]
      exact resyncChain_lb parent lb hstep cf ts i0 h j
    | false =>
      have he := resyncChain_false_eq parent cf ts i0 hb
      simp only [resyncScan, hb, Bool.false_eq_true, if_false]
      rw [he]
      exact ih ts h j

/-- A scan that did work strictly decreased some timestamp. -/
lemma resyncScan_true_lt (parent : Fin n → Option (Fin n)) (cf : Nat) :
    ∀ (order : List (Fin n)) (ts : Fin n → Int),
      (resyncScan parent cf order ts).2 = true →
      ∃ j, (resyncScan parent cf order ts).1 j < ts j := by
  intro order
  induction order with
  | nil => intro ts h; simp [resyncScan] at h
  | cons i0 rest ih =>
    intro ts h
    cases hb : (resyncChain parent cf ts i0).2 with
    | true =>
      simp only [resyncScan, hb, if_true]
      exact resyncChain_true_lt parent cf ts i0 hb
    | false =>
      have he := resyncChain_false_eq parent cf ts i0 hb
      simp only [resyncScan, hb, Bool.false_eq_true, if_false] at h ⊢
      rw [he] at h ⊢
      exact ih ts h

/-- The slack measure strictly drops when the timestamps drop pointwise
with a strict drop somewhere, all staying above the lower bound. -/
lemma resyncMeasure_lt (lb ts ts' : Fin n → Int)
    (hlb' : ∀ j, lb j ≤ ts' j) (hle : ∀ j, ts' j ≤ ts j)
    (hlt : ∃ j, ts' j < ts j) :
    resyncMeasure lb ts' < resyncMeasure lb ts := by
  obtain ⟨j0, hj0⟩ := hlt
  unfold resyncMeasure
  refine Finset.sum_lt_sum (fun i _ => ?_) ⟨j0, Finset.mem_univ j0, ?_⟩
  · have h1 := hle i
    have h2 := hlb' i
    omega
  · have h2 := hlb' j0
    omega

/-- The body of the C1 theorem, by induction on the fuel. -/
lemma tree_completed_resync_go (parent : Fin n → Option (Fin n))
    (lb : Fin n → Int)
    (hstep : ∀ i p, parent i = some p → lb p ≤ lb i - 1)
    (order : List (Fin n)) (horder : ∀ i, i ∈ order) :
    ∀ (fuel : Nat) (ts : Fin n → Int), (∀ j, lb j ≤ ts j) →
      resyncMeasure lb ts < fuel →
      (tree_completed_resync parent order fuel ts).2 = true ∧
      ∀ i p, parent i = some p →
        (tree_completed_resync parent order fuel ts).1 p
          < (tree_completed_resync parent order fuel ts).1 i := by
  intro fuel
  induction fuel with
  | zero => intro ts hlb hfuel; omega
  | succ f ih =>
    intro ts hlb hfuel
    cases hb : (resyncScan parent n order ts).2 with
    | true =>
      have hle := resyncScan_le parent n order ts
      have hlt := resyncScan_true_lt parent n order ts hb
      have hlb' := resyncScan_lb parent n lb hstep order ts hlb
      have hm := resyncMeasure_lt lb ts _ hlb' hle hlt
      have hrec := ih _ hlb' (by omega)
      simpa [tree_completed_resync, hb] using hrec
    | false =>
      have he := resyncScan_false_eq parent n order ts hb
      constructor
      · simp [tree_completed_resync, hb]
      · intro i p hp
        have h0 : 0 < n := i.pos
        have hinv := resyncScan_false_inv parent n h0 order ts hb i
          (horder i) p hp
        simp only [tree_completed_resync, hb, Bool.false_eq_true, if_false]
        rw [he]
        exact hinv

/-- C1: the resync loop of tree_completed terminates — with fuel beyond
the slack measure of the initial timestamps over any lower bound that
drops across parent links, the loop reaches a fixpoint — and at the
fixpoint every revision with a parent has a strictly earlier parent
timestamp. -/
theorem resync_loop_reaches_strict_monotonicity
    (parent : Fin n → Option (Fin n)) (ts lb : Fin n → Int)
    (hlb : ∀ j, lb j ≤ ts j)
    (hstep : ∀ i p, parent i = some p → lb p ≤ lb i - 1)
    (order : List (Fin n)) (horder : ∀ i, i ∈ order)
    (fuel : Nat) (hfuel : resyncMeasure lb ts < fuel) :
    (tree_completed_resync parent order fuel ts).2 = true ∧
    ∀ i p, parent i = some p →
      (tree_completed_resync parent order fuel ts).1 p
        < (tree_completed_resync parent order fuel ts).1 i :=
  tree_completed_resync_go parent lb hstep order horder fuel ts hlb hfuel

/-- The parent map of the C1 witness: two revisions 1.1 (index 0) and
1.2 (index 1), with 1.1 the parent of 1.2. -/
def c1parent : Fin 2 → Option (Fin 2) := fun i => if i = 1 then some 0 else none

/-- The initial timestamps of the C1 witness: both revisions in the same
second. -/
def c1ts : Fin 2 → Int := fun _ => 10

/-- A lower bound for the C1 witness dropping across the parent link. -/
def c1lb : Fin 2 → Int := fun i => if i = 1 then 9 else 8

/-- Witness for C1: on two equal-timestamp revisions the loop reaches its
fixpoint within fuel 4 and the parent ends strictly earlier. -/
theorem resync_loop_reaches_strict_monotonicity_witness :
    (tree_completed_resync c1parent [0, 1] 4 c1ts).2 = true ∧
    ∀ i p, c1parent i = some p →
      (tree_completed_resync c1parent [0, 1] 4 c1ts).1 p
        < (tree_completed_resync c1parent [0, 1] 4 c1ts).1 i :=
  resync_loop_reaches_strict_monotonicity c1parent c1ts c1lb (by decide)
    (by decide) [0, 1] (by decide) 4 (by decide)

/-- The scenario of two commits on one line of development: revision 1.1
at index 0 is the parent of revision 1.2 at index 1. -/
def s3parent : Fin 2 → Option (Fin 2) := fun i => if i = 1 then some 0 else none

/-- The initial timestamps of the two-commit scenario. -/
def s3ts (t1 t2 : Int) : Fin 2 → Int := fun i => if i = 1 then t2 else t1

/-- Running the tree_completed resync loop on the two-commit scenario
(fuel 2 reaches the fixpoint in every case). -/
def s3run (t1 t2 : Int) : (Fin 2 → Int) × Bool :=
  tree_completed_resync s3parent [0, 1] 2 (s3ts t1 t2)

/-- Counterexample for C7: with both commits recorded in the same second
(timestamp 100), the resync does not move the second (later) revision
forward — its timestamp stays 100, below the 101 the claim requires —
and instead moves the first revision back to 99. -/
theorem resync_does_not_move_second_forward :
    (s3run 100 100).1 1 = 100 ∧ (s3run 100 100).1 0 = 99 ∧
    ¬(100 + 1 ≤ (s3run 100 100).1 1) := by decide

/-- C7 (amended): two commits on the same line of development produce two
revisions with strictly increasing timestamps; the later revision keeps
its recorded timestamp, and when the earlier one did not strictly precede
it the earlier one is resynced backward to one second before the later
one. -/
theorem resync_two_quick_commits (t1 t2 : Int) :
    (s3run t1 t2).2 = true ∧
    (s3run t1 t2).1 1 = t2 ∧
    (s3run t1 t2).1 0 = (if t2 ≤ t1 then t2 - 1 else t1) ∧
    (s3run t1 t2).1 0 < (s3run t1 t2).1 1 := by
  have h01 : ((0 : Fin 2) = 1) = False := by simp
  have h10 : ((1 : Fin 2) = 0) = False := by simp
  by_cases h : t1 < t2
  · have hns : ¬ t2 ≤ t1 := by omega
    refine ⟨?_, ?_, ?_, ?_⟩ <;>
      simp [s3run, tree_completed_resync, resyncScan, resyncChain, s3parent,
        s3ts, h01, h10, h, hns]
  · have hle : t2 ≤ t1 := by omega
    refine ⟨?_, ?_, ?_, ?_⟩ <;>
      simp [s3run, tree_completed_resync, resyncScan, resyncChain, s3parent,
        s3ts, Function.update_apply, h01, h10, h, hle]
